import Mathlib

/-!
# Store API — verification of the catalog query service

Shallow embedding of `src/index.js` (Express handlers over a Firestore
`products` collection).  The document store is modelled as a `List Doc`;
Firestore query primitives (`where`, `orderBy`, `limit`, `startAfter`)
are modelled denotationally: `where` is `List.filter`, `orderBy f dir`
sorts by the composite key `(field value, document id)` — Firestore
always appends the document id as the final tie-breaking sort key, in
the direction of the last explicit `orderBy` — `limit n` is
`List.take n`, and `startAfter snapshot` keeps exactly the documents
strictly after the snapshot's position in the query order.
-/

/-- A stored product document.  `docId` is the provider-assigned document
identifier (the Firestore document name); the remaining fields are the
document's data.  `storedId` models an optional `id` key stored inside
the document data itself (the data is schemaless), `none` meaning the
data has no `id` key. -/
structure Doc where
  docId : String
  title : String
  price : Int
  brand : String
  category : String
  rating : Int
  searchKeywords : List String
  storedId : Option String
deriving DecidableEq, Repr

/-- A serialized product record as sent in JSON responses. -/
structure ProductOut where
  id : String
  title : String
  price : Int
  brand : String
  category : String
  rating : Int
  searchKeywords : List String
deriving DecidableEq, Repr

/-- `{ id: doc.id, ...doc.data() }`: the `id` key is written first and the
document data is spread after it, so when the data itself contains an
`id` key the stored value overwrites the annotated document id. -/
def toResponse (d : Doc) : ProductOut :=
  { id := match d.storedId with
      | some v => v
      | none => d.docId
    title := d.title
    price := d.price
    brand := d.brand
    category := d.category
    rating := d.rating
    searchKeywords := d.searchKeywords }

/-- JavaScript `String.prototype.toLowerCase()` on the ASCII fragment:
each character lowercased independently. -/
def jsToLower (s : String) : String := String.mk (s.data.map Char.toLower)

/-- JavaScript `String.prototype.split(sep)` for a one-character
separator, on the character list: empty segments are kept and splitting
the empty string yields one empty segment. -/
def jsSplitChars (sep : Char → Bool) : List Char → List (List Char)
  | [] => [[]]
  | c :: cs =>
    if sep c then [] :: jsSplitChars sep cs
    else
      match jsSplitChars sep cs with
      | [] => [[c]]
      | t :: ts => (c :: t) :: ts

/-- JavaScript `s.split(sep)` for a one-character separator string. -/
def jsSplit (sep : Char) (s : String) : List String :=
  (jsSplitChars (fun c => c == sep) s.data).map String.mk

/-- Value of the named sortable field of a document (the spec's data model
names `price` and `rating` as the numeric sort fields; any other field
name is modelled as the constant 0). -/
def fieldVal (f : String) (d : Doc) : Int :=
  if f = "price" then d.price
  else if f = "rating" then d.rating
  else 0

/-- Composite Firestore sort key for `orderBy(f, _)`: the field value,
tie-broken by the document id (compared lexicographically as its
character list). -/
def docKey (f : String) (d : Doc) : Int ×ₗ List Char :=
  toLex (fieldVal f d, d.docId.data)

/-- Query-order comparison for `orderBy(f, ord)`: ascending on the
composite key, reversed when `ord = "desc"`. -/
def docLe (f ord : String) (a b : Doc) : Prop :=
  if ord = "desc" then docKey f b ≤ docKey f a else docKey f a ≤ docKey f b

/-- Strictly-after in the query order of `orderBy(f, ord)`. -/
def docLt (f ord : String) (a b : Doc) : Prop :=
  if ord = "desc" then docKey f b < docKey f a else docKey f a < docKey f b

instance (f ord : String) (a b : Doc) : Decidable (docLe f ord a b) := by
  unfold docLe
  split <;> exact inferInstance

instance (f ord : String) (a b : Doc) : Decidable (docLt f ord a b) := by
  unfold docLt
  split <;> exact inferInstance

instance (f ord : String) : IsTotal Doc (docLe f ord) where
  total a b := by unfold docLe; split <;> exact le_total _ _

instance (f ord : String) : IsTrans Doc (docLe f ord) where
  trans a b c := by
    unfold docLe
    split
    · exact fun h h2 => le_trans h2 h
    · exact fun h h2 => le_trans h h2

/-- `orderBy(f, ord)` materialized over a document list. -/
def sortDocs (f ord : String) (l : List Doc) : List Doc :=
  l.insertionSort (docLe f ord)

/-- The optional `where('category', '==', c)` filter. -/
def applyCategory (c : Option String) (l : List Doc) : List Doc :=
  match c with
  | some cat => l.filter (fun d => d.category == cat)
  | none => l

/-- `startAfter(cur)`: the documents strictly after `cur` in query order. -/
def afterCursor (f ord : String) (cur : Doc) (l : List Doc) : List Doc :=
  l.filter (fun d => decide (docLt f ord cur d))

/-- Parameters of `GET /products` after query-string parsing. -/
structure ListParams where
  category : Option String
  sortBy : String
  order : String
  limit : Nat
  page : Nat
deriving Repr

/-- Document-level result of the `GET /products` handler, mirroring
`src/index.js` lines 24–53: build `q` as the category-filtered,
ordered, limited query; when `page > 1` run a previous-page query over
the **whole** collection (no category filter) with the same ordering,
bounded to `(page-1)*limit`, and if it returned a last document use it
as a `startAfter` cursor for `q`. -/
def listDocs (p : ListParams) (store : List Doc) : List Doc :=
  if 1 < p.page then
    match ((sortDocs p.sortBy p.order store).take ((p.page - 1) * p.limit)).getLast? with
    | some cur =>
      (afterCursor p.sortBy p.order cur
        (sortDocs p.sortBy p.order (applyCategory p.category store))).take p.limit
    | none =>
      (sortDocs p.sortBy p.order (applyCategory p.category store)).take p.limit
  else
    (sortDocs p.sortBy p.order (applyCategory p.category store)).take p.limit

/-- The `GET /products` handler: `listDocs` mapped through response
serialization. -/
def listProducts (p : ListParams) (store : List Doc) : List ProductOut :=
  (listDocs p store).map toResponse

/-- Claim-side description of List Products pagination (C1's wording):
the previous-page query carries the **same filter** as the main query,
category included.  To be compared with `listDocs`, which embeds the
source. -/
def listDocsClaimC1 (p : ListParams) (store : List Doc) : List Doc :=
  if 1 < p.page then
    match ((sortDocs p.sortBy p.order (applyCategory p.category store)).take
        ((p.page - 1) * p.limit)).getLast? with
    | some cur =>
      (afterCursor p.sortBy p.order cur
        (sortDocs p.sortBy p.order (applyCategory p.category store))).take p.limit
    | none =>
      (sortDocs p.sortBy p.order (applyCategory p.category store)).take p.limit
  else
    (sortDocs p.sortBy p.order (applyCategory p.category store)).take p.limit

/-- Result of the `GET /product/:productId` handler: a direct key lookup,
`404` when `exists()` is false. -/
inductive GetOutcome where
  | notFound
  | found (r : ProductOut)
deriving DecidableEq, Repr

/-- The `GET /product/:productId` handler (`src/index.js` lines 60–75). -/
def getProductById (pid : String) (store : List Doc) : GetOutcome :=
  match store.find? (fun d => d.docId == pid) with
  | none => .notFound
  | some d => .found (toResponse d)

/-- Outcome of the `GET /products/search` handler: either the `400`
client error (missing or empty `q`) or the matched records. -/
inductive SearchOutcome where
  | clientError (status : Nat) (msg : String)
  | ok (products : List ProductOut)
deriving DecidableEq, Repr

/-- The `GET /products/search` handler (`src/index.js` lines 91–113):
JavaScript `!q` is true for an absent parameter and for the empty
string; otherwise `where('searchKeywords', 'array-contains',
q.toLowerCase())` with no `orderBy`, i.e. a pure membership filter in
store order. -/
def searchProducts (q : Option String) (store : List Doc) : SearchOutcome :=
  match q with
  | none => .clientError 400 "Search term (q) is required"
  | some s =>
    if s = "" then .clientError 400 "Search term (q) is required"
    else
      .ok ((store.filter
        (fun d => d.searchKeywords.contains (jsToLower s))).map toResponse)

/-- The `GET /products/filter` handler (`src/index.js` lines 116–140):
`minPrice` defaults to 0, `maxPrice` to `Infinity` (modelled as `none`,
an absent upper bound); range filter on `price`, then the optional
equality filter on the lowercased `brand`, then `orderBy(sort)`
(ascending, the Firestore default direction). -/
def filterProducts (minPrice maxPrice : Option Int) (brand : Option String)
    (sort : String) (store : List Doc) : List ProductOut :=
  let q1 := store.filter (fun d =>
    (minPrice.getD 0 ≤ d.price : Bool) &&
      (match maxPrice with
       | some m => (d.price ≤ m : Bool)
       | none => true))
  let q2 := match brand with
    | some b => q1.filter (fun d => d.brand == jsToLower b)
    | none => q1
  (sortDocs sort "asc" q2).map toResponse

/-- The keyword-recomputation maintenance routine
(`updateProductsWithKeywords`, `src/index.js` lines 77–89): for every
document, `title.toLowerCase().split(' ')` — a split on the single
space character, keeping empty segments and duplicates — written back
as `searchKeywords`. -/
def computeKeywords (title : String) : List String :=
  jsSplit ' ' (jsToLower title)

/-- The store after running `updateProductsWithKeywords` to completion:
each document's `searchKeywords` replaced by `computeKeywords` of its
title, everything else unchanged. -/
def updateProductsWithKeywords (store : List Doc) : List Doc :=
  store.map (fun d => { d with searchKeywords := computeKeywords d.title })

/-- Claim-side description for C9: the **set** of lowercase
whitespace-split tokens of the title (whitespace meaning spaces, tabs
and line breaks; a set has no duplicates and no empty token). -/
def specKeywordSet (title : String) : List String :=
  (((jsSplitChars (fun c => c == ' ' || c == '\t' || c == '\n' || c == '\r')
    (jsToLower title).data).map String.mk).filter (fun t => t ≠ "")).dedup

/-- Claim-side description of Filter Products: one combined predicate —
price within `[minPrice.getD 0, maxPrice]` (both bounds inclusive, an
absent `maxPrice` meaning no upper bound) AND brand equal to the
lowercased `brand` when given — then ordered by `sort` ascending. -/
def filterProductsSpec (minPrice maxPrice : Option Int) (brand : Option String)
    (sort : String) (store : List Doc) : List ProductOut :=
  (sortDocs sort "asc" (store.filter (fun d =>
    ((minPrice.getD 0 ≤ d.price : Bool) &&
      (match maxPrice with
       | some m => (d.price ≤ m : Bool)
       | none => true)) &&
    (match brand with
     | some b => d.brand == jsToLower b
     | none => true)))).map toResponse

/-! ### Concrete fixture documents used by counterexamples and witnesses -/

def exd1 : Doc := ⟨"p1", "t1", 1, "b1", "b", 0, [], none⟩

def exd2 : Doc := ⟨"p2", "t2", 2, "b2", "a", 0, [], none⟩

def exd3 : Doc := ⟨"p3", "t3", 3, "b3", "a", 0, [], none⟩

def exStore : List Doc := [exd1, exd2, exd3]

def exParams : ListParams := ⟨some "a", "price", "asc", 1, 2⟩

def kwd1 : Doc := ⟨"k1", "Red Shoe", 1, "b", "c", 0, ["red", "shoe"], none⟩

def kwd2 : Doc := ⟨"k2", "Blue Hat", 1, "b", "c", 0, ["blue", "hat"], none⟩

def kwStore : List Doc := [kwd1, kwd2]

def exTitleDoc : Doc := ⟨"p1", "Red\tShoe", 5, "b", "c", 0, [], none⟩

def exSpread : Doc := ⟨"p9", "t", 0, "b", "c", 0, [], some "zz"⟩

/-- Field-only comparison of serialized records in the requested
direction, with no tie-break: the order the spec's sentences speak
about ("sorted by `sortBy` in `order` direction"). -/
def outFieldVal (f : String) (r : ProductOut) : Int :=
  if f = "price" then r.price
  else if f = "rating" then r.rating
  else 0

/-- Response-level sort-order comparison on the `sortBy` field alone. -/
def outFieldLe (f ord : String) (a b : ProductOut) : Prop :=
  if ord = "desc" then outFieldVal f b ≤ outFieldVal f a
  else outFieldVal f a ≤ outFieldVal f b

/-! ### Order lemmas for the composite Firestore sort key -/

theorem stringDataInj {s t : String} (h : s.data = t.data) : s = t := by
  cases s
  cases t
  exact congrArg String.mk h

theorem docKey_inj {f : String} {a b : Doc} (h : docKey f a = docKey f b) :
    a.docId = b.docId := by
  unfold docKey at h
  have h2 : a.docId.data = b.docId.data :=
    congrArg (fun p => (ofLex p).2) h
  exact stringDataInj h2

theorem docLt_irrefl (f ord : String) (a : Doc) : ¬ docLt f ord a a := by
  unfold docLt
  split <;> exact lt_irrefl _

theorem docLt_asymm {f ord : String} {a b : Doc} (h : docLt f ord a b) :
    ¬ docLt f ord b a := by
  unfold docLt at h ⊢
  by_cases hd : ord = "desc"
  · rw [if_pos hd] at h ⊢
    exact lt_asymm h
  · rw [if_neg hd] at h ⊢
    exact lt_asymm h

theorem docLt_of_docLe_of_ne {f ord : String} {a b : Doc}
    (h : docLe f ord a b) (hne : a.docId ≠ b.docId) : docLt f ord a b := by
  have hk : docKey f a ≠ docKey f b := fun he => hne (docKey_inj he)
  unfold docLe at h
  unfold docLt
  by_cases hd : ord = "desc"
  · rw [if_pos hd] at h ⊢
    exact lt_of_le_of_ne h (fun he => hk he.symm)
  · rw [if_neg hd] at h ⊢
    exact lt_of_le_of_ne h hk

theorem fieldVal_le_of_docLe {f ord : String} {a b : Doc} (h : docLe f ord a b) :
    (if ord = "desc" then fieldVal f b ≤ fieldVal f a
     else fieldVal f a ≤ fieldVal f b) := by
  unfold docLe docKey at h
  by_cases hd : ord = "desc"
  · rw [if_pos hd] at h ⊢
    rcases (Prod.Lex.le_iff _ _).mp h with h1 | h1
    · exact le_of_lt h1
    · exact le_of_eq h1.1
  · rw [if_neg hd] at h ⊢
    rcases (Prod.Lex.le_iff _ _).mp h with h1 | h1
    · exact le_of_lt h1
    · exact le_of_eq h1.1

theorem outFieldVal_toResponse (f : String) (d : Doc) :
    outFieldVal f (toResponse d) = fieldVal f d := rfl

theorem outFieldLe_of_docLe {f ord : String} {a b : Doc} (h : docLe f ord a b) :
    outFieldLe f ord (toResponse a) (toResponse b) := by
  have h2 := fieldVal_le_of_docLe h
  unfold outFieldLe
  rw [outFieldVal_toResponse, outFieldVal_toResponse]
  exact h2

/-! ### Sorting lemmas -/

theorem sortDocs_perm (f ord : String) (l : List Doc) :
    List.Perm (sortDocs f ord l) l :=
  List.perm_insertionSort _ l

theorem sortDocs_sorted (f ord : String) (l : List Doc) :
    List.Pairwise (docLe f ord) (sortDocs f ord l) :=
  List.sorted_insertionSort _ l

theorem mem_sortDocs {f ord : String} {l : List Doc} {d : Doc} :
    d ∈ sortDocs f ord l ↔ d ∈ l :=
  List.mem_insertionSort _

theorem sortDocs_length (f ord : String) (l : List Doc) :
    (sortDocs f ord l).length = l.length :=
  (sortDocs_perm f ord l).length_eq

theorem sortDocs_nodup_ids (f ord : String) {l : List Doc}
    (hn : (l.map Doc.docId).Nodup) :
    ((sortDocs f ord l).map Doc.docId).Nodup :=
  ((sortDocs_perm f ord l).map Doc.docId).nodup_iff.mpr hn

theorem sortDocs_pairwise_lt (f ord : String) {l : List Doc}
    (hn : (l.map Doc.docId).Nodup) :
    List.Pairwise (docLt f ord) (sortDocs f ord l) := by
  have hs := sortDocs_sorted f ord l
  have hn2 := sortDocs_nodup_ids f ord hn
  rw [List.Nodup, List.pairwise_map] at hn2
  exact (hs.and hn2).imp (fun h => docLt_of_docLe_of_ne h.1 h.2)

/-! ### The startAfter cursor on strictly sorted lists -/

theorem afterCursor_append (f ord : String) (cur : Doc) :
    ∀ (l1 l2 : List Doc),
      List.Pairwise (docLt f ord) (l1 ++ cur :: l2) →
      afterCursor f ord cur (l1 ++ cur :: l2) = l2 := by
  intro l1
  induction l1 with
  | nil =>
    intro l2 h
    rw [List.nil_append] at h
    rw [List.pairwise_cons] at h
    unfold afterCursor
    rw [List.nil_append, List.filter_cons]
    have hrefl : (decide (docLt f ord cur cur)) = false := by
      simpa using docLt_irrefl f ord cur
    rw [hrefl]
    simp only [Bool.false_eq_true, if_false]
    exact List.filter_eq_self.mpr (fun a ha => by simpa using h.1 a ha)
  | cons a l1 ih =>
    intro l2 h
    rw [List.cons_append] at h
    rw [List.pairwise_cons] at h
    have hac : docLt f ord a cur := h.1 cur (by simp)
    unfold afterCursor
    rw [List.cons_append, List.filter_cons]
    have hneg : (decide (docLt f ord cur a)) = false := by
      simpa using docLt_asymm hac
    rw [hneg]
    simp only [Bool.false_eq_true, if_false]
    exact ih l2 h.2

theorem getLast?_take_eq {α : Type _} {l : List α} {n : Nat}
    (h1 : 1 ≤ n) (h2 : n ≤ l.length) :
    (l.take n).getLast? = some (l.get ⟨n - 1, by omega⟩) := by
  rw [List.getLast?_eq_getElem?, List.length_take, Nat.min_eq_left h2,
    List.getElem?_take_of_lt (by omega), List.getElem?_eq_getElem (by omega)]
  rfl

/-- Splitting a list at position `n - 1` (for `1 ≤ n ≤ length`): the
prefix of length `n - 1`, the element at `n - 1`, and the tail from
`n`. -/
theorem take_get_drop_decomp {α : Type _} {l : List α} {n : Nat}
    (h1 : 1 ≤ n) (h2 : n ≤ l.length) :
    l = l.take (n - 1) ++ l.get ⟨n - 1, by omega⟩ :: l.drop n := by
  have hd : l.drop (n - 1) = l.get ⟨n - 1, by omega⟩ :: l.drop n := by
    rw [List.drop_eq_getElem_cons (by omega)]
    have : n - 1 + 1 = n := by omega
    rw [this]
    rfl
  rw [← hd, List.take_append_drop]

/-! ### Pagination decomposition -/

/-- Page 1 of List Products with no category filter is the first
`limit` records of the sorted collection. -/
theorem listDocs_page_one (f ord : String) (L : Nat) (store : List Doc) :
    listDocs ⟨none, f, ord, L, 1⟩ store = (sortDocs f ord store).take L := by
  unfold listDocs
  simp [applyCategory]

/-- Page 2 of List Products with no category filter: the previous-page
query returns the first `L` sorted records, its last record is the
cursor, and the main query returns the next `L` records. -/
theorem listDocs_page_two (f ord : String) {L : Nat} {store : List Doc}
    (hL : 1 ≤ L) (hlen : L ≤ store.length)
    (hn : (store.map Doc.docId).Nodup) :
    listDocs ⟨none, f, ord, L, 2⟩ store =
      ((sortDocs f ord store).drop L).take L := by
  have hslen : (sortDocs f ord store).length = store.length :=
    sortDocs_length f ord store
  have hlen2 : L ≤ (sortDocs f ord store).length := by omega
  have hone : (2 - 1) * L = L := by omega
  have hpw : List.Pairwise (docLt f ord) (sortDocs f ord store) :=
    sortDocs_pairwise_lt f ord hn
  obtain ⟨cur, hlast, hdecomp⟩ :
      ∃ cur, ((sortDocs f ord store).take L).getLast? = some cur ∧
        sortDocs f ord store =
          (sortDocs f ord store).take (L - 1) ++
            cur :: (sortDocs f ord store).drop L :=
    ⟨_, getLast?_take_eq hL hlen2, take_get_drop_decomp hL hlen2⟩
  have hafter : afterCursor f ord cur (sortDocs f ord store) =
      (sortDocs f ord store).drop L := by
    have h3 := afterCursor_append f ord cur
      ((sortDocs f ord store).take (L - 1))
      ((sortDocs f ord store).drop L) (hdecomp ▸ hpw)
    calc afterCursor f ord cur (sortDocs f ord store)
        = afterCursor f ord cur
            ((sortDocs f ord store).take (L - 1) ++
              cur :: (sortDocs f ord store).drop L) := by rw [← hdecomp]
      _ = (sortDocs f ord store).drop L := h3
  unfold listDocs
  simp only [applyCategory, hone]
  rw [if_pos (by norm_num), hlast]
  show (afterCursor f ord cur (sortDocs f ord store)).take L = _
  rw [hafter]

/-! ### Structural facts about the List Products handler -/

theorem listDocs_pairwise (p : ListParams) (store : List Doc) :
    List.Pairwise (docLe p.sortBy p.order) (listDocs p store) := by
  have hbase := sortDocs_sorted p.sortBy p.order (applyCategory p.category store)
  unfold listDocs
  split
  · split
    · exact List.Pairwise.sublist
        ((List.take_sublist _ _).trans (List.filter_sublist _)) hbase
    · exact List.Pairwise.sublist (List.take_sublist _ _) hbase
  · exact List.Pairwise.sublist (List.take_sublist _ _) hbase

theorem listDocs_subset (p : ListParams) (store : List Doc) :
    ∀ d ∈ listDocs p store, d ∈ applyCategory p.category store := by
  intro d hd
  unfold listDocs at hd
  split at hd
  · split at hd
    · exact mem_sortDocs.mp
        (List.mem_of_mem_filter (List.take_subset _ _ hd))
    · exact mem_sortDocs.mp (List.take_subset _ _ hd)
  · exact mem_sortDocs.mp (List.take_subset _ _ hd)

theorem applyCategory_subset (c : Option String) (store : List Doc) :
    ∀ d ∈ applyCategory c store, d ∈ store := by
  intro d hd
  cases c with
  | none => exact hd
  | some cat => exact List.mem_of_mem_filter hd

theorem applyCategory_category {c : String} {store : List Doc} {d : Doc}
    (hd : d ∈ applyCategory (some c) store) : d.category = c := by
  have h2 := (List.mem_filter.mp hd).2
  exact eq_of_beq h2

theorem listDocs_length_le (p : ListParams) (store : List Doc) :
    (listDocs p store).length ≤ p.limit := by
  unfold listDocs
  split
  · split <;> exact List.length_take_le _ _
  · exact List.length_take_le _ _

theorem toResponse_id_of_none {d : Doc} (h : d.storedId = none) :
    (toResponse d).id = d.docId := by
  unfold toResponse
  rw [h]

theorem listProducts_map_id (p : ListParams) (store : List Doc)
    (hno : ∀ d ∈ store, d.storedId = none) :
    (listProducts p store).map ProductOut.id = (listDocs p store).map Doc.docId := by
  unfold listProducts
  rw [List.map_map]
  exact List.map_congr_left (fun d hd => toResponse_id_of_none
    (hno d (applyCategory_subset _ _ d (listDocs_subset p store d hd))))

/-! ### Key lookup -/

theorem find?_docId_eq {store : List Doc} {d : Doc}
    (hn : (store.map Doc.docId).Nodup) (hd : d ∈ store) :
    store.find? (fun x => x.docId == d.docId) = some d := by
  induction store with
  | nil => cases hd
  | cons a t ih =>
    rw [List.map_cons, List.nodup_cons] at hn
    rcases List.mem_cons.mp hd with h | h
    · subst h
      exact List.find?_cons_of_pos _ (by simp)
    · by_cases he : a.docId = d.docId
      · exact absurd (he ▸ List.mem_map_of_mem Doc.docId h) hn.1
      · rw [List.find?_cons_of_neg _ (by simpa using he)]
        exact ih hn.2 h

/-! ### Lowercasing -/

theorem jsToLower_eq_empty {s : String} (h : jsToLower s = "") : s = "" := by
  have h2 : s.data.map Char.toLower = ("" : String).data := congrArg String.data h
  have h3 : s.data = [] := List.map_eq_nil_iff.mp h2
  exact stringDataInj h3

/-! ## Claims -/

/-- C1: the claim says the previous-page query carries the same filter,
category included.  It does not: in the source the previous-page query
is built from the bare `Products` collection, so with a category filter
the cursor is taken from the unfiltered collection and the results
differ from the claim's description at a concrete store. -/
theorem listProducts_prev_filtered_counterexample :
    listProducts exParams exStore ≠
      (listDocsClaimC1 exParams exStore).map toResponse := by decide

/-- C1 (amended): for page N > 1 the handler issues a previous-page
query with the same sortBy/order ordering but **no category filter**,
bounded to (N-1)*limit results over the whole collection, takes its
last record as a cursor, and runs the main (category-filtered, ordered,
limited) query strictly after that cursor. -/
theorem listProducts_prev_page_unfiltered (p : ListParams) (store : List Doc)
    (hp : 1 < p.page) :
    listProducts p store =
      (match ((sortDocs p.sortBy p.order store).take
          ((p.page - 1) * p.limit)).getLast? with
        | some cur =>
          (afterCursor p.sortBy p.order cur
            (sortDocs p.sortBy p.order (applyCategory p.category store))).take p.limit
        | none =>
          (sortDocs p.sortBy p.order (applyCategory p.category store)).take
            p.limit).map toResponse := by
  unfold listProducts listDocs
  rw [if_pos hp]

/-- Witness for the amended C1 at a concrete page-2 request. -/
theorem listProducts_prev_page_unfiltered_witness :
    listProducts exParams exStore = [toResponse exd2] :=
  (listProducts_prev_page_unfiltered exParams exStore (by decide)).trans (by decide)

/-- C2: the claim quantifies over every filter, category included.  With
a category filter the unfiltered previous-page cursor makes page 1 and
page 2 overlap: in `exStore`, the category `"a"` has 2 ≥ 2·1 matching
records, yet pages 1 and 2 with `limit = 1` both return `"p2"`. -/
theorem listProducts_pages_overlap_counterexample :
    2 * 1 ≤ (exStore.filter (fun d => d.category == "a")).length ∧
    (listProducts ⟨some "a", "price", "asc", 1, 1⟩ exStore).map ProductOut.id
      = ["p2"] ∧
    (listProducts ⟨some "a", "price", "asc", 1, 2⟩ exStore).map ProductOut.id
      = ["p2"] := by decide

/-- C2 (amended): with **no category filter**, limit L ≥ 1, at least 2L
records, distinct document ids and data without stored `id` keys, page
1 and page 2 are disjoint in identifiers and their concatenation is in
global sort order for the requested sortBy/order. -/
theorem listProducts_pages_disjoint_sorted (f ord : String) (store : List Doc)
    (L : Nat) (hL : 1 ≤ L) (hlen : 2 * L ≤ store.length)
    (hn : (store.map Doc.docId).Nodup)
    (hno : ∀ d ∈ store, d.storedId = none) :
    (∀ i ∈ (listProducts ⟨none, f, ord, L, 1⟩ store).map ProductOut.id,
        i ∉ (listProducts ⟨none, f, ord, L, 2⟩ store).map ProductOut.id) ∧
    List.Pairwise (outFieldLe f ord)
      (listProducts ⟨none, f, ord, L, 1⟩ store ++
        listProducts ⟨none, f, ord, L, 2⟩ store) := by
  have h1 : listDocs ⟨none, f, ord, L, 1⟩ store = (sortDocs f ord store).take L :=
    listDocs_page_one f ord L store
  have h2 : listDocs ⟨none, f, ord, L, 2⟩ store =
      ((sortDocs f ord store).drop L).take L :=
    listDocs_page_two f ord hL (by omega) hn
  constructor
  · intro i hi1 hi2
    rw [listProducts_map_id _ _ hno, h1] at hi1
    rw [listProducts_map_id _ _ hno, h2] at hi2
    have hsn : ((sortDocs f ord store).map Doc.docId).Nodup :=
      sortDocs_nodup_ids f ord hn
    have hsplit : (sortDocs f ord store).map Doc.docId =
        ((sortDocs f ord store).take L).map Doc.docId ++
          ((sortDocs f ord store).drop L).map Doc.docId := by
      rw [← List.map_append, List.take_append_drop]
    rw [hsplit] at hsn
    have hdisj := (List.nodup_append.mp hsn).2.2
    exact hdisj hi1
      (List.map_subset Doc.docId (List.take_subset _ _) hi2)
  · have hcat : listDocs ⟨none, f, ord, L, 1⟩ store ++
        listDocs ⟨none, f, ord, L, 2⟩ store =
        (sortDocs f ord store).take (L + L) := by
      rw [h1, h2, List.take_add]
    have hpw : List.Pairwise (docLe f ord)
        ((sortDocs f ord store).take (L + L)) :=
      (sortDocs_sorted f ord store).take
    unfold listProducts
    rw [← List.map_append, hcat]
    exact List.pairwise_map.mpr (hpw.imp outFieldLe_of_docLe)

/-- Witness for the amended C2 at a concrete store. -/
theorem listProducts_pages_disjoint_sorted_witness :
    (∀ i ∈ (listProducts ⟨none, "price", "asc", 1, 1⟩ exStore).map ProductOut.id,
        i ∉ (listProducts ⟨none, "price", "asc", 1, 2⟩ exStore).map ProductOut.id) ∧
    List.Pairwise (outFieldLe "price" "asc")
      (listProducts ⟨none, "price", "asc", 1, 1⟩ exStore ++
        listProducts ⟨none, "price", "asc", 1, 2⟩ exStore) :=
  listProducts_pages_disjoint_sorted "price" "asc" exStore 1
    (by decide) (by decide) (by decide) (by decide)

/-- C3: when the previous-page query returns zero records (its last
record is absent), no startAfter cursor is applied and the main query
runs without a cursor bound — still category-filtered, ordered and
limited. -/
theorem listProducts_no_cursor (p : ListParams) (store : List Doc)
    (hp : 1 < p.page)
    (hprev : ((sortDocs p.sortBy p.order store).take
      ((p.page - 1) * p.limit)).getLast? = none) :
    listProducts p store =
      ((sortDocs p.sortBy p.order (applyCategory p.category store)).take
        p.limit).map toResponse := by
  unfold listProducts listDocs
  rw [if_pos hp, hprev]

/-- Witness for C3: page 2 over an empty store. -/
theorem listProducts_no_cursor_witness :
    listProducts ⟨some "a", "price", "asc", 1, 2⟩ [] = [] :=
  (listProducts_no_cursor ⟨some "a", "price", "asc", 1, 2⟩ []
    (by decide) (by decide)).trans (by decide)

/-- C4: for every request (any valid limit/page included), List Products
returns at most `limit` records, sorted by the `sortBy` field in the
`order` direction, each restricted to the requested category when one
is given, and — for stores whose document data carries no `id` key, as
in the spec's data model — each record annotated with its document
identifier. -/
theorem listProducts_bounded_sorted_filtered (p : ListParams) (store : List Doc)
    (hno : ∀ d ∈ store, d.storedId = none) :
    (listProducts p store).length ≤ p.limit ∧
    List.Pairwise (outFieldLe p.sortBy p.order) (listProducts p store) ∧
    ∀ r ∈ listProducts p store,
      (∀ c, p.category = some c → r.category = c) ∧
      ∃ d ∈ store, r = toResponse d ∧ r.id = d.docId := by
  refine ⟨?_, ?_, ?_⟩
  · unfold listProducts
    rw [List.length_map]
    exact listDocs_length_le p store
  · exact List.pairwise_map.mpr
      ((listDocs_pairwise p store).imp outFieldLe_of_docLe)
  · intro r hr
    obtain ⟨d, hd, hrd⟩ := List.mem_map.mp hr
    have hdc := listDocs_subset p store d hd
    have hds : d ∈ store := applyCategory_subset _ _ d hdc
    refine ⟨?_, d, hds, hrd.symm, ?_⟩
    · intro c hc
      rw [← hrd]
      show d.category = c
      exact applyCategory_category (hc ▸ hdc)
    · rw [← hrd]
      exact toResponse_id_of_none (hno d hds)

/-- Witness for C4 at a concrete request. -/
theorem listProducts_bounded_sorted_filtered_witness :
    (listProducts exParams exStore).length ≤ exParams.limit ∧
    List.Pairwise (outFieldLe exParams.sortBy exParams.order)
      (listProducts exParams exStore) ∧
    ∀ r ∈ listProducts exParams exStore,
      (∀ c, exParams.category = some c → r.category = c) ∧
      ∃ d ∈ exStore, r = toResponse d ∧ r.id = d.docId :=
  listProducts_bounded_sorted_filtered exParams exStore (by decide)

/-- C5: Filter Products returns exactly the products with
`minPrice ≤ price ≤ maxPrice` (inclusive bounds; omitted bounds default
to 0 and no upper bound), AND-restricted to the lowercased brand when
given, ordered ascending by the `sort` field. -/
theorem filterProducts_range_brand_sorted (mn mx : Option Int)
    (br : Option String) (srt : String) (store : List Doc) :
    filterProducts mn mx br srt store = filterProductsSpec mn mx br srt store := by
  unfold filterProducts filterProductsSpec
  cases br with
  | none =>
    dsimp only
    have hf : store.filter (fun d =>
        (decide (mn.getD 0 ≤ d.price) &&
          (match mx with
           | some m => decide (d.price ≤ m)
           | none => true)) && true) =
        store.filter (fun d =>
          decide (mn.getD 0 ≤ d.price) &&
            (match mx with
             | some m => decide (d.price ≤ m)
             | none => true)) :=
      List.filter_congr (fun d _ => Bool.and_true _)
    rw [hf]
  | some b =>
    dsimp only
    rw [List.filter_filter]
    have hf : store.filter (fun d =>
        (d.brand == jsToLower b) &&
          (decide (mn.getD 0 ≤ d.price) &&
            (match mx with
             | some m => decide (d.price ≤ m)
             | none => true))) =
        store.filter (fun d =>
          (decide (mn.getD 0 ≤ d.price) &&
            (match mx with
             | some m => decide (d.price ≤ m)
             | none => true)) && (d.brand == jsToLower b)) :=
      List.filter_congr (fun d _ => Bool.and_comm _ _)
    rw [hf]

/-- C6: for a non-empty term `q`, Search Products returns exactly the
products whose `searchKeywords` collection contains the lowercased `q`
as an exact token, and any term with the same lowercasing (in
particular any case variant) yields identical results. -/
theorem searchProducts_exact_tokens (s : String) (store : List Doc)
    (hs : s ≠ "") :
    searchProducts (some s) store =
      SearchOutcome.ok ((store.filter
        (fun d => d.searchKeywords.contains (jsToLower s))).map toResponse) ∧
    ∀ s2 : String, jsToLower s2 = jsToLower s →
      searchProducts (some s2) store = searchProducts (some s) store := by
  constructor
  · unfold searchProducts
    dsimp only
    rw [if_neg hs]
  · intro s2 h
    have hs2 : s2 ≠ "" := by
      intro he
      apply hs
      apply jsToLower_eq_empty
      rw [← h, he]
      rfl
    unfold searchProducts
    dsimp only
    rw [if_neg hs2, if_neg hs, h]

/-- Witness for C6: searching `"RED"` equals searching `"red"` and
returns exactly the record whose keyword set contains `"red"`. -/
theorem searchProducts_exact_tokens_witness :
    searchProducts (some "red") kwStore = searchProducts (some "RED") kwStore ∧
    searchProducts (some "RED") kwStore = SearchOutcome.ok [toResponse kwd1] :=
  ⟨(searchProducts_exact_tokens "RED" kwStore (by decide)).2 "red" (by decide),
    ((searchProducts_exact_tokens "RED" kwStore (by decide)).1).trans (by decide)⟩

/-- C7: Get Product By ID returns the record with matching id field for
an existing identifier (given ids are unique and the data carries no
stored `id` key), and a not-found signal — not a server fault — when no
document has the identifier. -/
theorem getProductById_found_or_404 (pid : String) (store : List Doc)
    (hn : (store.map Doc.docId).Nodup) (hno : ∀ d ∈ store, d.storedId = none) :
    (∀ d ∈ store, d.docId = pid →
      getProductById pid store = GetOutcome.found (toResponse d) ∧
        (toResponse d).id = pid) ∧
    ((∀ d ∈ store, d.docId ≠ pid) → getProductById pid store = GetOutcome.notFound) := by
  constructor
  · intro d hd hdp
    have hfind := find?_docId_eq hn hd
    rw [hdp] at hfind
    constructor
    · unfold getProductById
      rw [hfind]
    · rw [toResponse_id_of_none (hno d hd)]
      exact hdp
  · intro h
    unfold getProductById
    rw [List.find?_eq_none.mpr (fun x hx => by simpa using h x hx)]

/-- Witness for C7: a present id and an absent id on a concrete store. -/
theorem getProductById_found_or_404_witness :
    getProductById "p2" exStore = GetOutcome.found (toResponse exd2) ∧
    (toResponse exd2).id = "p2" ∧
    getProductById "zz" exStore = GetOutcome.notFound :=
  ⟨((getProductById_found_or_404 "p2" exStore (by decide) (by decide)).1
      exd2 (by decide) rfl).1,
   ((getProductById_found_or_404 "p2" exStore (by decide) (by decide)).1
      exd2 (by decide) rfl).2,
   (getProductById_found_or_404 "zz" exStore (by decide) (by decide)).2
      (by decide)⟩

/-- C8: a missing or empty `q` yields the 400 client error with the
structured body, and the outcome is independent of the store — no query
is executed. -/
theorem searchProducts_missing_q_rejected (store store2 : List Doc) :
    searchProducts none store =
      SearchOutcome.clientError 400 "Search term (q) is required" ∧
    searchProducts (some "") store =
      SearchOutcome.clientError 400 "Search term (q) is required" ∧
    searchProducts none store = searchProducts none store2 ∧
    searchProducts (some "") store = searchProducts (some "") store2 := by
  refine ⟨rfl, ?_, rfl, ?_⟩ <;>
    · unfold searchProducts
      dsimp only
      simp

/-- C9: the claim says the written `searchKeywords` value equals the
**set of whitespace-split** tokens of the title.  The code writes
`title.toLowerCase().split(' ')`: a split on the single space character
only, keeping duplicates and empty segments.  For the title
`"Red\tShoe"` the written value is the single token `"red\tshoe"`,
while the whitespace-token set contains `"red"`. -/
theorem updateKeywords_set_counterexample :
    (updateProductsWithKeywords [exTitleDoc]).map Doc.searchKeywords
      = [["red\tshoe"]] ∧
    "red" ∈ specKeywordSet exTitleDoc.title ∧
    "red" ∉ (["red\tshoe"] : List String) := by decide

/-- C9 (amended): the maintenance operation writes back, for every
record, the **list** obtained by splitting the lowercased title on
single space characters (order, duplicates and empty segments
preserved), leaving every other field — in particular id and title —
unchanged. -/
theorem updateProductsWithKeywords_amended (store : List Doc) :
    (updateProductsWithKeywords store).map Doc.searchKeywords =
      store.map (fun d => jsSplit ' ' (jsToLower d.title)) ∧
    (updateProductsWithKeywords store).map Doc.docId = store.map Doc.docId ∧
    (updateProductsWithKeywords store).map Doc.title = store.map Doc.title := by
  unfold updateProductsWithKeywords computeKeywords
  refine ⟨?_, ?_, ?_⟩ <;> rw [List.map_map] <;> rfl

/-- C10: every record any endpoint returns is `toResponse` of a stored
document — the document data with an added `id` key — and because the
data is spread after the `id` key, a stored `id` field overwrites the
annotated document identifier. -/
theorem responses_spread_id (p : ListParams) (mn mx : Option Int)
    (br : Option String) (srt q pid : String) (store : List Doc) :
    (∀ r ∈ listProducts p store, ∃ d ∈ store, r = toResponse d) ∧
    (∀ l, searchProducts (some q) store = SearchOutcome.ok l →
      ∀ r ∈ l, ∃ d ∈ store, r = toResponse d) ∧
    (∀ r ∈ filterProducts mn mx br srt store, ∃ d ∈ store, r = toResponse d) ∧
    (∀ r, getProductById pid store = GetOutcome.found r →
      ∃ d ∈ store, r = toResponse d) ∧
    (∀ d : Doc, d.storedId = none → (toResponse d).id = d.docId) ∧
    (∀ d : Doc, ∀ v, d.storedId = some v → (toResponse d).id = v) := by
  refine ⟨?_, ?_, ?_, ?_, ?_, ?_⟩
  · intro r hr
    obtain ⟨d, hd, hrd⟩ := List.mem_map.mp hr
    exact ⟨d, applyCategory_subset _ _ d (listDocs_subset p store d hd), hrd.symm⟩
  · intro l hl r hr
    unfold searchProducts at hl
    dsimp only at hl
    by_cases hq : q = ""
    · rw [if_pos hq] at hl
      cases hl
    · rw [if_neg hq] at hl
      cases hl
      obtain ⟨d, hd, hrd⟩ := List.mem_map.mp hr
      exact ⟨d, List.mem_of_mem_filter hd, hrd.symm⟩
  · intro r hr
    unfold filterProducts at hr
    dsimp only at hr
    obtain ⟨d, hd, hrd⟩ := List.mem_map.mp hr
    refine ⟨d, ?_, hrd.symm⟩
    have hd2 := mem_sortDocs.mp hd
    cases br with
    | none => exact List.mem_of_mem_filter hd2
    | some b => exact List.mem_of_mem_filter (List.mem_of_mem_filter hd2)
  · intro r hr
    unfold getProductById at hr
    cases hfind : store.find? (fun d => d.docId == pid) with
    | none => rw [hfind] at hr; cases hr
    | some d =>
      rw [hfind] at hr
      cases hr
      exact ⟨d, List.mem_of_find?_eq_some hfind, rfl⟩
  · intro d h
    unfold toResponse
    rw [h]
  · intro d v h
    unfold toResponse
    rw [h]

/-- Witness for C10: a stored `id` key overwrites the annotation; with
no stored `id` key the document identifier is kept. -/
theorem responses_spread_id_witness :
    (toResponse exSpread).id = "zz" ∧ (toResponse exd1).id = "p1" :=
  ⟨(responses_spread_id ⟨none, "price", "asc", 1, 1⟩ none none none
      "price" "q" "p" [exSpread]).2.2.2.2.2 exSpread "zz" rfl,
   (responses_spread_id ⟨none, "price", "asc", 1, 1⟩ none none none
      "price" "q" "p" [exd1]).2.2.2.2.1 exd1 rfl⟩
